import Mathlib

/-!
Shallow embedding of the `pydf` LHA parsing core
(`src/pydf/lha/parse.py`, `src/pydf/lha/path.py`, `src/pydf/lha/utils.py`).

Python strings are modelled as Lean `String` (a wrapper around `List Char`);
all text manipulation is done by executable list functions that mirror the
Python string operations used by the source (`str.split`, `str.strip`,
whitespace tokenization, substring membership).  Numeric file content is kept
as raw tokens: the claims under verification are about counts, shapes,
ordering and error propagation, never about floating-point arithmetic.
Fallible Python code is modelled with `Except PyError`.
-/

deriving instance DecidableEq for Except

namespace Pydf

/-- Whitespace test matching Python `str.strip` / `str.split()` defaults
(space, tab, newline, carriage return, vertical tab, form feed). -/
def isWS (c : Char) : Bool :=
  c = ' ' ∨ c = '\t' ∨ c = '\n' ∨ c = '\r' ∨ c = '\x0b' ∨ c = '\x0c'

/-- Accumulator loop for `splitSep`: Python `str.split(sep)` with a
one-character separator, keeping empty pieces. -/
def splitSepGo (sep : Char) : List Char → List Char → List (List Char)
  | acc, [] => [acc.reverse]
  | acc, c :: rest =>
    if c = sep then acc.reverse :: splitSepGo sep [] rest
    else splitSepGo sep (c :: acc) rest

/-- Python `s.split(sep)` for a one-character separator. -/
def splitSep (sep : Char) (l : List Char) : List (List Char) :=
  splitSepGo sep [] l

/-- Accumulator loop for `splitSepN`. The `Nat` argument counts the splits
still allowed. -/
def splitSepNGo (sep : Char) : Nat → List Char → List Char → List (List Char)
  | _, acc, [] => [acc.reverse]
  | 0, acc, rest => [acc.reverse ++ rest]
  | n + 1, acc, c :: rest =>
    if c = sep then acc.reverse :: splitSepNGo sep n [] rest
    else splitSepNGo sep (n + 1) (c :: acc) rest

/-- Python `s.split(sep, maxsplit)` for a one-character separator. -/
def splitSepN (sep : Char) (maxsplit : Nat) (l : List Char) : List (List Char) :=
  splitSepNGo sep maxsplit [] l

/-- Accumulator loop for `wordsBy`: splits a list into maximal runs of
characters not satisfying `p`, discarding empty runs. -/
def wordsByGo (p : Char → Bool) : List Char → List Char → List (List Char)
  | acc, [] => if acc.isEmpty then [] else [acc.reverse]
  | acc, c :: rest =>
    if p c then
      if acc.isEmpty then wordsByGo p [] rest
      else acc.reverse :: wordsByGo p [] rest
    else wordsByGo p (c :: acc) rest

/-- Tokenization into maximal separator-free words. -/
def wordsBy (p : Char → Bool) (l : List Char) : List (List Char) :=
  wordsByGo p [] l

/-- Tokens of a grid line as read by the source through
`pd.read_csv(io.StringIO(text.replace(" ", "\n")), sep=" ")`: every space
becomes a line separator and blank lines are skipped, so the result is the
space-separated words of the line. -/
def spaceTokens (l : List Char) : List (List Char) :=
  wordsBy (fun c => c = ' ') l

/-- Tokens of one physical line under pandas `delim_whitespace=True`:
maximal whitespace-free words. -/
def wsTokens (l : List Char) : List (List Char) :=
  wordsBy isWS l

/-- Python `str.strip()` with no argument: remove leading and trailing
whitespace. -/
def pyStrip (l : List Char) : List Char :=
  ((l.dropWhile isWS).reverse.dropWhile isWS).reverse

/-- Matching loop for `dropStart?`. -/
def dropStartL : List Char → List Char → Option (List Char)
  | [], l => some l
  | _ :: _, [] => none
  | p :: ps, c :: cs => if p = c then dropStartL ps cs else none

/-- Substring containment, i.e. Python `needle in haystack` on strings. -/
def containsSub : List Char → List Char → Bool
  | needle, [] => needle.isEmpty
  | needle, c :: rest => needle.isPrefixOf (c :: rest) || containsSub needle rest

/-- String-level wrapper for `containsSub`. -/
def strContains (needle hay : String) : Bool :=
  containsSub needle.data hay.data

/-- Splitting loop of `member`'s `content.split("---")`: Python `str.split`
with the three-character separator `---`, scanning left to right and
consuming each non-overlapping occurrence, wherever it occurs (the scan is
plain substring search, with no notion of lines). -/
def delimSplitGo : List Char → List Char → List (List Char)
  | acc, '-' :: '-' :: '-' :: rest => acc.reverse :: delimSplitGo [] rest
  | acc, c :: rest => delimSplitGo (c :: acc) rest
  | acc, [] => [acc.reverse]

/-- Model of `content.split("---")` as used by `member` in
`src/pydf/lha/parse.py`. -/
def memberParts (content : String) : List String :=
  (delimSplitGo [] content.data).map String.mk

/-- Lowercasing of a string, Python `str.lower` (sufficient for the ASCII
scheme names compared by `member_type`). -/
def pyLower (s : String) : String :=
  String.mk (s.data.map Char.toLower)

/-- Exceptions raised by the modelled code.  `valueError` carries the
message, because `parse` dispatches on substrings of `verr.args[0]`;
`memberSkip` models the `MemberSkip` control-flow exception;
`fileNotFound` models `FileNotFoundError`; `other` models exceptions that
are neither `ValueError` nor `MemberSkip` (so `parse` never catches them). -/
inductive PyError where
  | valueError (msg : String)
  | memberSkip (id : String)
  | fileNotFound (msg : String)
  | other (msg : String)
deriving DecidableEq, Repr

/-- Multi-dimensional numpy array of value tokens.  `shape` is the numpy
shape; `data` is the row-major (C-order) flattened content, kept as the raw
textual tokens since no claim computes with the numbers. -/
structure Tensor where
  shape : List Nat
  data : List String
deriving DecidableEq, Repr

/-- Model of `np.array([])`: the one-dimensional empty array that `member`
puts into its returned list in place of the parsed blocks. -/
def emptyArray : Tensor :=
  { shape := [0], data := [] }

/-- Element of a three-axis tensor at index `(ix, iq, ifl)` under numpy
C-order layout: the flavor axis is contiguous, then the Q2 axis, then the
x axis. -/
def Tensor.at3 (t : Tensor) (ix iq ifl : Nat) : String :=
  t.data.getD ((ix * t.shape.getD 1 0 + iq) * t.shape.getD 2 0 + ifl) ""

/-- Member-id filter accepted by `member` and `parse`.  The source accepts a
`Sequence` (of id strings) or a `range` (`parse` normalizes a `slice`
argument to a `range` of ints before the loop). -/
inductive PyFilter where
  | seq (ids : List String)
  | intRange (start stop step : Int)
deriving DecidableEq, Repr

/-- Python membership test `id in filter` for the extracted id string.
For a sequence it is plain membership.  For a `range`, Python
`range.__contains__` falls back to `==` comparisons against the integers of
the range, and a `str` never equals an `int`, so the test is always false. -/
def PyFilter.mem (id : String) : PyFilter → Bool
  | .seq ids => ids.contains id
  | .intRange _ _ _ => false

/-- Splits a header line at its first `": "` occurrence. -/
def splitColon : List Char → Option (List Char × List Char)
  | [] => none
  | ':' :: ' ' :: rest => some ([], rest)
  | c :: rest => (splitColon rest).map (fun p => (c :: p.1, p.2))

/-- Model of `yaml.safe_load` restricted to the flat `Key: value` mappings
appearing in LHA member headers and `.info` files: one pair per line, keys
and values whitespace-stripped, lines without a `": "` ignored. -/
def yamlLoad (s : String) : List (String × String) :=
  (splitSep '\n' s.data).filterMap fun l =>
    (splitColon l).map fun p =>
      (String.mk (pyStrip p.1), String.mk (pyStrip p.2))

/-- Lookup in a header mapping, Python `dict.get`. -/
def headerGet (h : List (String × String)) (k : String) : Option String :=
  h.lookup k

/-- Update of a header mapping, Python `dict.__setitem__`. -/
def headerSet (h : List (String × String)) (k v : String) : List (String × String) :=
  if h.any (fun kv => kv.1 = k) then
    h.map (fun kv => if kv.1 = k then (k, v) else kv)
  else h ++ [(k, v)]

/-- Model of `member_type` from `src/pydf/lha/parse.py`: checks or
determines the member type from the four-digit id, the header-declared type
and the set-level error type. -/
def member_type (id : String) (pdftype : Option String) (errortype : Option String) :
    Except PyError String :=
  match pdftype with
  | some t =>
    if id = "0000" ∧ t ≠ "central" then
      .error (.valueError ("Member 0000 has to be 'central', found '" ++ t ++ "'"))
    else .ok t
  | none =>
    if id = "0000" then .ok "central"
    else
      let et := pyLower ((errortype.getD ""))
      if et = "hessian" ∨ et = "symhessian" then .ok "error"
      else if et = "replicas" then .ok "replica"
      else .ok "member"

/-- Message of the numpy `ValueError` raised by
`values.reshape(xgrid.size, qgrid.size, flavors.size)` on a count
mismatch. -/
def reshapeMsg (total nx nq nf : Nat) : String :=
  "cannot reshape array of size " ++ toString total ++ " into shape (" ++
    toString nx ++ "," ++ toString nq ++ "," ++ toString nf ++ ")"

/-- Data rows of the value segment as read by
`pd.read_csv(io.StringIO(fltext + "\n" + valtext), delim_whitespace=True)`:
each physical line is whitespace-tokenized and blank lines are skipped. -/
def valueRows (val : List Char) : List (List (List Char)) :=
  ((splitSep '\n' val).map wsTokens).filter (fun r => ¬ r.isEmpty)

/-- Completion of a data row to the header width: pandas fills the missing
trailing fields of a short row with `NaN`, kept here as the token `nan`. -/
def padRow (n : Nat) (r : List (List Char)) : List (List Char) :=
  r ++ List.replicate (n - r.length) "nan".data

/-- Position and width of the first data row wider than the expected field
count, for the pandas `ParserError` message.  The counter starts at the
stream line of the first data row (the header is line 1). -/
def firstTooLong (expected : Nat) : Nat → List (List (List Char)) → Nat × Nat
  | _, [] => (0, 0)
  | i, r :: rest =>
    if expected < r.length then (i, r.length) else firstTooLong expected (i + 1) rest

/-- Message of the pandas `ParserError` (a `ValueError` subclass) raised
when a data row is wider than the expected field count.  Line numbering
counts the header as stream line 1 and assumes no interleaved blank lines
before the offending row. -/
def parserErrorMsg (expected : Nat) (rows : List (List (List Char))) : String :=
  let p := firstTooLong expected 2 rows
  "Error tokenizing data. C error: Expected " ++ toString expected ++
    " fields in line " ++ toString p.1 ++ ", saw " ++ toString p.2 ++ "\n"

/-- Model of `member_block` from `src/pydf/lha/parse.py`.  The block text is
stripped and split into at most four segments at the first three newlines;
fewer segments make the tuple unpacking raise `ValueError`.  The first three
segments are tokenized as the x-grid, Q2-grid and flavor lines; an empty
grid line raises pandas `EmptyDataError`, a `ValueError` subclass.  The
remaining text is read as a whitespace-delimited table whose header is the
flavor line, with the pandas field-count recovery: when the first data row
is wider than the header by `nidx` fields, the leading `nidx` fields of
every row are consumed as the inferred index and do not reach `.values`;
a row narrower than the resulting width is `NaN`-padded at the end; a row
wider than it raises the pandas `ParserError`, a catchable `ValueError`.
Finally the `.values` table is reshaped, C-order, to
`(len x, len Q2, len flavors)`; a size mismatch raises the numpy
`ValueError` of `reshapeMsg`. -/
def memberBlock (content : String) :
    Except PyError (List String × List String × List String × Tensor) :=
  match splitSepN '\n' 3 (pyStrip content.data) with
  | [x, q, fl, val] =>
    let xg := spaceTokens x
    let qg := spaceTokens q
    let flg := spaceTokens fl
    if xg.isEmpty ∨ qg.isEmpty ∨ flg.isEmpty then
      .error (.valueError "No columns to parse from file")
    else
      let hdr := wsTokens fl
      let rawRows := valueRows val
      let nidx := (rawRows.headD []).length - hdr.length
      if rawRows.all (fun r => r.length ≤ hdr.length + nidx) then
        let rows := rawRows.map (fun r => padRow hdr.length (r.drop nidx))
        let total := rows.length * hdr.length
        if total = xg.length * qg.length * flg.length then
          .ok (xg.map String.mk, qg.map String.mk, flg.map String.mk,
            { shape := [xg.length, qg.length, flg.length],
              data := rows.flatten.map String.mk })
        else .error (.valueError (reshapeMsg total xg.length qg.length flg.length))
      else .error (.valueError (parserErrorMsg (hdr.length + nidx) rawRows))
  | parts =>
    .error (.valueError
      ("not enough values to unpack (expected 4, got " ++ toString parts.length ++ ")"))

/-- Model of `re.fullmatch(member_filename(path.parent.name), path.name)`.
The source pattern is the f-string `rf"{setname}_(\d{4}).dat"` in which the
dot before `dat` is an unescaped regex wildcard: it matches any character
except a newline.  On success the four-digit capture group is returned.
The model covers set names without regex metacharacters (real LHAPDF set
names). -/
def extractId (parentName fileName : String) : Option String :=
  match dropStartL (parentName ++ "_").data fileName.data with
  | some [d1, d2, d3, d4, c, 'd', 'a', 't'] =>
    if d1.isDigit ∧ d2.isDigit ∧ d3.isDigit ∧ d4.isDigit ∧ c ≠ '\n' then
      some (String.mk [d1, d2, d3, d4])
    else none
  | _ => none

/-- Monadic map of `memberBlock` over the block segments, mirroring the
`for block in parts[1:]` loop of `member` (the first failing block
propagates). -/
def blocksMapM : List String → Except PyError (List Tensor)
  | [] => .ok []
  | p :: rest => do
    let b ← memberBlock p
    let bs ← blocksMapM rest
    .ok (b.2.2.2 :: bs)

/-- Body of `member` after the filename and filter checks, operating on the
file content: split on `---`, YAML-parse the first segment as header,
resolve `PdfType` via `member_type`, drop a blank trailing segment (a
non-blank one only triggers a warning and is kept), parse every remaining
segment as a block — and then return the header together with
`[np.array([])]`, exactly as the source does: the parsed blocks are
discarded. -/
def memberCore (id : String) (content : String) (errortype : Option String) :
    Except PyError (List (String × String) × List Tensor) := do
  let parts := memberParts content
  let header := yamlLoad (parts.headD "")
  let pdftype ← member_type id (headerGet header "PdfType") errortype
  let header := headerSet header "PdfType" pdftype
  let parts := if ¬ (pyStrip (parts.getLastD "").data).isEmpty then parts
    else parts.dropLast
  let _blocks ← blocksMapM (parts.drop 1)
  .ok (header, [emptyArray])

/-- Model of `member` from `src/pydf/lha/parse.py`.  `parentName` is the
name of the containing directory, `fileName` the member file name and
`content` the file text (reading the file happens after the filename and
filter checks, so those checks cannot depend on `content`). -/
def member (parentName fileName content : String) (errortype : Option String)
    (filter : Option PyFilter) :
    Except PyError (List (String × String) × List Tensor) :=
  match extractId parentName fileName with
  | none =>
    .error (.valueError
      ("File '" ++ fileName ++ "' does not match members name convention"))
  | some id =>
    match filter with
    | some f =>
      if f.mem id then memberCore id content errortype
      else .error (.memberSkip id)
    | none => memberCore id content errortype

/-- Directory of the modelled filesystem: its absolute path, the names of
its child directories and its child regular files with their text content.
Paths are joined with `"/"`; entry names contain no `"/"`. -/
structure FSDir where
  path : String
  subdirs : List String
  files : List (String × String)
deriving Repr

/-- Filesystem: the collection of directories that exist. -/
structure FS where
  dirs : List FSDir
deriving Repr

/-- Directory lookup by absolute path. -/
def FS.findDir (fs : FS) (p : String) : Option FSDir :=
  fs.dirs.find? (fun d => d.path = p)

/-- Python `Path.is_dir()`. -/
def FS.isDir (fs : FS) (p : String) : Bool :=
  (fs.findDir p).isSome

/-- Content of the regular file at absolute path `p`, when it exists. -/
def FS.fileContent (fs : FS) (p : String) : Option String :=
  (fs.dirs.filterMap fun d =>
    (d.files.find? fun nc => d.path ++ "/" ++ nc.1 = p).map Prod.snd).head?

/-- Python `Path.is_file()`. -/
def FS.isFile (fs : FS) (p : String) : Bool :=
  (fs.fileContent p).isSome

/-- Python `Path.exists()`. -/
def FS.pathExists (fs : FS) (p : String) : Bool :=
  fs.isDir p || fs.isFile p

/-- Entry names returned by `Path.iterdir()` on a directory. -/
def FSDir.iterNames (d : FSDir) : List String :=
  d.subdirs ++ d.files.map Prod.fst

/-- Process environment and interpreter state consulted by
`lhapdf_datapath`: `os.environ`, `sys.prefix`, `pathlib.Path.home()`,
`sys.base_prefix`, and the optional legacy `lhapdf` module with the list
returned by `lhapdf.paths()` (`none` when the import fails). -/
structure Env where
  vars : String → Option String
  sysPre : String
  userHome : String
  basePre : String
  lhapdfModule : Option (List String)

/-- Model of `lhapdf_datapath` from `src/pydf/lha/path.py`.  Paths are kept
verbatim as strings (`pathlib.Path` round-trips them unchanged for the
slash-separated inputs considered; the trailing slash of
`"share/LHAPDF/"` is dropped by `pathlib` and therefore by the model). -/
def lhapdf_datapath (env : Env) (fs : FS) : Except PyError (List String) :=
  match env.vars "LHAPDF_DATA_PATH" with
  | some paths => .ok ((splitSep ':' paths.data).map String.mk)
  | none =>
    match env.vars "LHAPATH" with
    | some paths => .ok ((splitSep ':' paths.data).map String.mk)
    | none =>
      let cands : List (Option String) :=
        [some env.sysPre, env.vars "PREFIX", some (env.userHome ++ "/.local"),
          some env.basePre]
      let paths := cands.foldl
        (fun acc c =>
          match c with
          | none => acc
          | some pp =>
            let lp := pp ++ "/share/LHAPDF"
            if fs.isDir lp then
              if fs.isDir (lp ++ "/lhapdf") then acc ++ [lp ++ "/lhapdf"]
              else acc ++ [lp]
            else acc)
        []
      if ¬ paths.isEmpty then .ok paths
      else
        match env.lhapdfModule with
        | some ps => .ok ps
        | none => .error (.fileNotFound "No data directory for LHAPDF found")

/-- Search loop of `locate` from `src/pydf/lha/path.py`. -/
def locateGo (fs : FS) (setname : String) : List String → Except PyError String
  | [] =>
    .error (.fileNotFound
      ("No PDF set '" ++ setname ++ "' available in LHAPDF path."))
  | r :: rest =>
    if fs.pathExists (r ++ "/" ++ setname) then .ok (r ++ "/" ++ setname)
    else locateGo fs setname rest

/-- Model of `locate` from `src/pydf/lha/path.py`. -/
def locate (env : Env) (fs : FS) (setname : String) : Except PyError String := do
  let lhapath ← lhapdf_datapath env fs
  locateGo fs setname lhapath

/-- Qualification check performed by `list_installed` on one directory
entry: `pdf.is_dir() and (pdf / f"{pdf.name}.info").is_file()`. -/
def entryOK (fs : FS) (r name : String) : Bool :=
  fs.isDir (r ++ "/" ++ name) &&
    fs.isFile (r ++ "/" ++ name ++ "/" ++ name ++ ".info")

/-- Inner loop of `list_installed` over the entries of one search root `r`:
an entry already present in the accumulated mapping is skipped before any
qualification check; otherwise it is added when it is a directory holding a
`<name>.info` file. -/
def installedInner (fs : FS) (r : String) :
    List String → List (String × String) → List (String × String)
  | [], acc => acc
  | name :: rest, acc =>
    if acc.any (fun kv => kv.1 = name) then installedInner fs r rest acc
    else
      if entryOK fs r name then
        installedInner fs r rest (acc ++ [(name, r ++ "/" ++ name)])
      else installedInner fs r rest acc

/-- Outer loop of `list_installed` over the search roots; `iterdir` on a
missing root raises `FileNotFoundError`. -/
def installedGo (fs : FS) :
    List String → List (String × String) → Except PyError (List (String × String))
  | [], acc => .ok acc
  | r :: rest, acc =>
    match fs.findDir r with
    | none => .error (.fileNotFound ("No such file or directory: '" ++ r ++ "'"))
    | some d => installedGo fs rest (installedInner fs r d.iterNames acc)

/-- Model of `list_installed` from `src/pydf/lha/utils.py`.  The result is
the insertion-ordered name-to-path mapping (paths in the model are already
absolute, so `Path.absolute()` is the identity). -/
def list_installed (env : Env) (fs : FS) : Except PyError (List (String × String)) := do
  let roots ← lhapdf_datapath env fs
  installedGo fs roots []

/-- Test of membership in the glob pattern `f"{setname}_*.dat"` used by
`parse` to enumerate candidate member files: the name starts with
`<setname>_`, ends with `.dat`, and the two parts do not overlap. -/
def globMatch (setname name : String) : Bool :=
  (setname ++ "_").data.isPrefixOf name.data &&
    ".dat".data.isSuffixOf name.data &&
    (setname ++ "_").data.length + 4 ≤ name.data.length

/-- Insertion into a sorted list of strings, preserving stability. -/
def insSorted (a : String) : List String → List String
  | [] => [a]
  | b :: l => if a ≤ b then a :: b :: l else b :: insSorted a l

/-- Insertion sort on file names, modelling Python `sorted` over the paths
returned by `glob` (same-directory `pathlib` paths compare by their final
component, code point by code point, exactly as the strings do). -/
def sortFiles : List String → List String
  | [] => []
  | a :: l => insSorted a (sortFiles l)

/-- Marker test of the `except ValueError` handler in `parse`:
`any(marker in verr.args[0] for marker in ["0000", "name convention"])`. -/
def hasMarker (msg : String) : Bool :=
  strContains "0000" msg || strContains "name convention" msg

/-- Member-file loop of `parse`: the state is the pair of the `members` and
`unidentified` lists.  A successful member appends its patches to
`members`; `MemberSkip` is consumed silently; a `ValueError` whose message
holds one of the two markers records `(memberpath, message)` in
`unidentified` and continues; any other error propagates and aborts. -/
def assembleGo (setname dirPath : String) (contentOf : String → String)
    (filter : Option PyFilter) :
    List String → List (List Tensor) × List (String × String) →
      Except PyError (List (List Tensor) × List (String × String))
  | [], st => .ok st
  | f :: rest, st =>
    match member setname f (contentOf f) none filter with
    | .ok res => assembleGo setname dirPath contentOf filter rest (st.1 ++ [res.2], st.2)
    | .error (.memberSkip _) => assembleGo setname dirPath contentOf filter rest st
    | .error (.valueError msg) =>
      if hasMarker msg then
        assembleGo setname dirPath contentOf filter rest
          (st.1, st.2 ++ [(dirPath ++ "/" ++ f, msg)])
      else .error (.valueError msg)
    | .error e => .error e

/-- Python value returned by `parse`: either a plain string or the PDF-set
container the specification describes (set metadata, ordered members,
excluded files).  The source's annotated return type corresponds to the
second variant; its actual `return ""` statement produces the first. -/
inductive PyValue where
  | str (s : String)
  | pdfSet (info : List (String × String)) (members : List (List Tensor))
      (excluded : List (String × String))
deriving DecidableEq, Repr

/-- Model of `parse` from `src/pydf/lha/parse.py`: locate the set
directory, read and YAML-parse `<setname>.info`, enumerate the glob
candidates in sorted order, run the member loop — and then return `""`,
exactly as the source does (the assembled members, the excluded list and
the info mapping are all discarded; the `PDF(...)` construction is
commented out). -/
def parse (env : Env) (fs : FS) (setname : String) (filter : Option PyFilter) :
    Except PyError PyValue := do
  let pdfdir ← locate env fs setname
  let infoText ←
    match fs.fileContent (pdfdir ++ "/" ++ setname ++ ".info") with
    | some c => Except.ok c
    | none =>
      Except.error (.fileNotFound
        ("No such file or directory: '" ++ pdfdir ++ "/" ++ setname ++ ".info'"))
  let _info := yamlLoad infoText
  let dirFiles ←
    match fs.findDir pdfdir with
    | some d => Except.ok d.files
    | none => Except.error (.other "NotADirectoryError")
  let files := sortFiles ((dirFiles.map Prod.fst).filter (globMatch setname))
  let contentOf := fun f => (dirFiles.lookup f).getD ""
  let _result ← assembleGo setname pdfdir contentOf filter files ([], [])
  .ok (.str "")

/-! Helper lemmas about the `---` splitter. -/

/-- Reduction of `delimSplitGo` at a delimiter occurrence. -/
theorem delimSplitGo_delim (acc rest : List Char) :
    delimSplitGo acc ('-' :: '-' :: '-' :: rest) = acc.reverse :: delimSplitGo [] rest :=
  rfl

/-- Reduction of `delimSplitGo` on a head character that is not a dash. -/
theorem delimSplitGo_cons_ne (acc : List Char) (c : Char) (l : List Char) (h : c ≠ '-') :
    delimSplitGo acc (c :: l) = delimSplitGo (c :: acc) l := by
  rw [delimSplitGo.eq_def]
  split
  · rename_i hq
    injection hq with h1 _
    exact absurd h1 h
  · rename_i hq
    injection hq with h1 h2
    rw [← h1, ← h2]
  · rename_i hq
    simp at hq

/-- `delimSplitGo` walks through a dash-free piece unchanged until the next
delimiter. -/
theorem delimSplitGo_append (pre : List Char) :
    ∀ acc rest, (∀ c ∈ pre, c ≠ '-') →
      delimSplitGo acc (pre ++ '-' :: '-' :: '-' :: rest) =
        (acc.reverse ++ pre) :: delimSplitGo [] rest := by
  induction pre with
  | nil => intro acc rest _; simp [delimSplitGo_delim]
  | cons c pre ih =>
    intro acc rest h
    have hc : c ≠ '-' := h c (by simp)
    rw [List.cons_append, delimSplitGo_cons_ne _ _ _ hc,
      ih (c :: acc) rest (fun d hd => h d (by simp [hd]))]
    simp

/-- A dash-free tail produces a single final segment. -/
theorem delimSplitGo_noDash (l : List Char) :
    ∀ acc, (∀ c ∈ l, c ≠ '-') → delimSplitGo acc l = [acc.reverse ++ l] := by
  induction l with
  | nil => intro acc _; simp [delimSplitGo]
  | cons c l ih =>
    intro acc h
    have hc : c ≠ '-' := h c (by simp)
    rw [delimSplitGo_cons_ne _ _ _ hc, ih (c :: acc) (fun d hd => h d (by simp [hd]))]
    simp

/-! Claim C3. -/

/-- Modelled from the spec (classification rules of §4.3, for comparison
with the source's `member_type`): explicit header type wins unless id
`"0000"` declares a non-central type, which is a validation failure
(`none`); else id `"0000"` is central; else the case-insensitive scheme
decides. -/
def memberTypeSpec (id : String) (declared : Option String) (scheme : Option String) :
    Option String :=
  match declared with
  | some t => if id = "0000" ∧ t ≠ "central" then none else some t
  | none =>
    if id = "0000" then some "central"
    else
      let s := pyLower (scheme.getD "")
      if s ∈ ["hessian", "symhessian"] then some "error"
      else if s = "replicas" then some "replica"
      else some "member"

/-- C3: for all id strings, declared types and error schemes, the source's
`member_type` realises exactly the three-tier precedence of the
specification — a declared type is returned unchanged except that id
`"0000"` with a non-central declared type is a validation failure, id
`"0000"` otherwise yields `central`, and the case-insensitive scheme yields
`error` for `hessian`/`symhessian`, `replica` for `replicas`, and `member`
for anything else including an absent scheme. -/
theorem c3_member_type_matches_spec (id : String) (pt et : Option String) :
    (member_type id pt et).toOption = memberTypeSpec id pt et := by
  cases pt with
  | some t =>
    by_cases h : id = "0000" ∧ t ≠ "central" <;>
      simp [member_type, memberTypeSpec, h, Except.toOption]
  | none =>
    by_cases h0 : id = "0000"
    · simp [member_type, memberTypeSpec, h0, Except.toOption]
    · by_cases h1 : pyLower (et.getD "") = "hessian" ∨ pyLower (et.getD "") = "symhessian"
      · simp [member_type, memberTypeSpec, h0, h1, Except.toOption]
      · by_cases h2 : pyLower (et.getD "") = "replicas" <;>
          simp [member_type, memberTypeSpec, h0, h1, h2, Except.toOption]

/-! Claim C1. -/

/-- Files of the fixture set directory `/d/s`: a valid `.info` resource and
one well-formed central member with a single 1×1×1 block. -/
def fsC1files : List (String × String) :=
  [("s.info", "SetDesc: demo\nErrorType: replicas"),
   ("s_0000.dat", "PdfType: central\n---\n1.0\n2.0\n21\n3.0\n---\n")]

/-- Fixture environment: the data path points at `/d`. -/
def envC1 : Env :=
  { vars := fun k => if k = "LHAPDF_DATA_PATH" then some "/d" else none,
    sysPre := "/usr", userHome := "/home/u", basePre := "/usr",
    lhapdfModule := none }

/-- Fixture filesystem holding the set `s` under the root `/d`. -/
def fsC1 : FS :=
  { dirs := [{ path := "/d", subdirs := ["s"], files := [] },
             { path := "/d/s", subdirs := [], files := fsC1files }] }

/-- C1 (code bug): on a search path holding a valid set with a good member,
`parse` does not return a PDF-set container at all — it returns the string
`""` (the `PDF(...)` construction is commented out in the source), even
though its member loop did assemble the member and an empty excluded list,
which are then discarded. -/
theorem c1_parse_returns_empty_string_not_pdfset :
    parse envC1 fsC1 "s" none = .ok (.str "") ∧
    (∀ info members excluded,
      parse envC1 fsC1 "s" none ≠ .ok (.pdfSet info members excluded)) ∧
    assembleGo "s" "/d/s" (fun f => (fsC1files.lookup f).getD "") none
      ["s_0000.dat"] ([], []) = .ok ([[emptyArray]], []) := by
  have hp : parse envC1 fsC1 "s" none = .ok (.str "") := by decide
  refine ⟨hp, ?_, by decide⟩
  intro info members excluded h
  rw [hp] at h
  exact PyValue.noConfusion (Except.ok.inj h)

/-! Claim C2. -/

/-- Well-formed member file with two delimiter-separated numeric blocks. -/
def c2content : String :=
  "PdfType: central\n---\n1.0\n2.0\n21\n3.0\n---\n5.0\n6.0\n21\n7.0\n---\n"

/-- C2 (code bug): on a well-formed two-block member file, the member
parser does parse both segments as blocks, in order (second conjunct: the
loop over `parts[1:]` succeeds and yields the two 1×1×1 tensors), but the
returned pair holds `[np.array([])]` instead of the parsed blocks — every
parsed tensor is dropped (first and third conjuncts). -/
theorem c2_member_discards_parsed_blocks :
    member "s" "s_0001.dat" c2content none none =
      .ok ([("PdfType", "central")], [emptyArray]) ∧
    blocksMapM ((memberParts c2content).dropLast.drop 1) =
      .ok [{ shape := [1, 1, 1], data := ["3.0"] },
           { shape := [1, 1, 1], data := ["7.0"] }] ∧
    ([emptyArray] : List Tensor) ≠
      [{ shape := [1, 1, 1], data := ["3.0"] },
       { shape := [1, 1, 1], data := ["7.0"] }] := by
  refine ⟨by decide, by decide, by decide⟩

/-! Claim C9. -/

/-- C9 (counterexample): a member text none of whose lines is the
three-character delimiter line `---` is nevertheless split at the `---`
embedded inside its first (longer) line: the header segment is cut off
mid-line and a second segment starts there, contradicting the claim that
an embedded `---` does not start a new segment. -/
theorem c9_counterexample_embedded_delimiter_splits :
    memberParts "Flavor: a---b\n" = ["Flavor: a", "b\n"] ∧
    (splitSep '\n' "Flavor: a---b\n".data).all (fun l => ¬ l = "---".data) = true := by
  refine ⟨by decide, by decide⟩

/-- C9 (amended): the split of a member file into header and block
segments is a plain substring split on every occurrence of the
three-character sequence `---`, wherever it occurs — including inside a
longer line; the first segment is the text before the first occurrence. -/
theorem c9_amended_split_at_any_occurrence (pre post : String)
    (h : ∀ c ∈ pre.data, c ≠ '-') :
    memberParts (pre ++ "---" ++ post) = pre :: memberParts post := by
  have hdata : (pre ++ "---" ++ post).data = pre.data ++ '-' :: '-' :: '-' :: post.data := by
    simp [String.data_append]
  unfold memberParts
  rw [hdata, delimSplitGo_append pre.data [] post.data h]
  simp

/-- Witness for `c9_amended_split_at_any_occurrence` at a concrete header
line and block text. -/
theorem c9_amended_split_at_any_occurrence_witness :
    (∀ c ∈ "a: b".data, c ≠ '-') ∧
    memberParts ("a: b" ++ "---" ++ "c") = ["a: b", "c"] := by
  refine ⟨by decide, ?_⟩
  rw [c9_amended_split_at_any_occurrence "a: b" "c" (by decide)]
  decide

/-! Claim C8. -/

/-- C8: whenever the primary data-path variable `LHAPDF_DATA_PATH` is set,
path resolution returns exactly its value split on `":"`, for every
filesystem (the universally quantified `fs` never influences the result:
no existence check is performed), ignoring every later source; the legacy
alias `LHAPATH` is consulted only when the primary variable is undefined. -/
theorem c8_datapath_env_first_defined_wins (env : Env) (fs : FS) :
    (∀ v, env.vars "LHAPDF_DATA_PATH" = some v →
      lhapdf_datapath env fs = .ok ((splitSep ':' v.data).map String.mk)) ∧
    (env.vars "LHAPDF_DATA_PATH" = none → ∀ w, env.vars "LHAPATH" = some w →
      lhapdf_datapath env fs = .ok ((splitSep ':' w.data).map String.mk)) := by
  constructor
  · intro v hv
    simp [lhapdf_datapath, hv]
  · intro h0 w hw
    simp [lhapdf_datapath, h0, hw]

/-- Fixture environment for the C8 witness: the primary variable holds
`"/a:/b"`. -/
def envC8 : Env :=
  { vars := fun k => if k = "LHAPDF_DATA_PATH" then some "/a:/b" else none,
    sysPre := "/usr", userHome := "/home/u", basePre := "/usr",
    lhapdfModule := none }

/-- Empty filesystem, witnessing that no existence filtering happens. -/
def fsEmpty : FS :=
  { dirs := [] }

/-- Witness for `c8_datapath_env_first_defined_wins`: with the variable set
to `"/a:/b"` and nothing on disk, the search path is exactly
`["/a", "/b"]`. -/
theorem c8_datapath_env_first_defined_wins_witness :
    envC8.vars "LHAPDF_DATA_PATH" = some "/a:/b" ∧
    lhapdf_datapath envC8 fsEmpty = .ok ["/a", "/b"] := by
  refine ⟨rfl, ?_⟩
  rw [(c8_datapath_env_first_defined_wins envC8 fsEmpty).1 "/a:/b" rfl]
  decide

/-! Claim C10. -/

/-- Qualification of a set name under one search root, as `list_installed`
observes it: the name is listed by `iterdir`, names a directory, and that
directory holds a `<name>.info` file. -/
def qualifies (fs : FS) (r name : String) : Bool :=
  match fs.findDir r with
  | none => false
  | some d => d.iterNames.contains name && entryOK fs r name

/-- Association-list lookup distributes over append. -/
theorem lookup_append (l₁ l₂ : List (String × String)) (a : String) :
    (l₁ ++ l₂).lookup a =
      match l₁.lookup a with
      | some v => some v
      | none => l₂.lookup a := by
  induction l₁ with
  | nil => simp
  | cons kv l₁ ih =>
    obtain ⟨k, v⟩ := kv
    rw [List.cons_append]
    simp only [List.lookup]
    cases a == k
    · exact ih
    · rfl

/-- The membership test `pdf.name in pdfs` agrees with lookup success. -/
theorem any_key_eq_lookup_isSome (acc : List (String × String)) (name : String) :
    acc.any (fun kv => kv.1 = name) = (acc.lookup name).isSome := by
  induction acc with
  | nil => simp
  | cons kv acc ih =>
    obtain ⟨k, v⟩ := kv
    by_cases h : name = k
    · subst h
      simp [List.lookup]
    · have h2 : (name == k) = false := by simpa using h
      have h3 : decide (k = name) = false := by
        simp only [decide_eq_false_iff_not]
        exact fun hh => h hh.symm
      simp only [List.any_cons, List.lookup, h2, h3]
      simpa using ih

/-- Entries already mapped are never overridden by the inner loop. -/
theorem installedInner_lookup_some (fs : FS) (r : String) (entries : List String)
    (name : String) :
    ∀ acc, (acc.lookup name).isSome →
      (installedInner fs r entries acc).lookup name = acc.lookup name := by
  induction entries with
  | nil => intro acc _; rfl
  | cons e rest ih =>
    intro acc hs
    unfold installedInner
    by_cases hany : acc.any (fun kv => kv.1 = e) = true
    · rw [if_pos hany]
      exact ih acc hs
    · rw [if_neg hany]
      by_cases hok : entryOK fs r e = true
      · rw [if_pos hok]
        have hne : e ≠ name := by
          intro hh
          rw [hh, any_key_eq_lookup_isSome, hs] at hany
          exact hany rfl
        have happ : (acc ++ [(e, r ++ "/" ++ e)]).lookup name = acc.lookup name := by
          rw [lookup_append]
          obtain ⟨v, hv⟩ := Option.isSome_iff_exists.mp hs
          rw [hv]
        rw [ih _ (by rw [happ]; exact hs), happ]
      · rw [if_neg hok]
        exact ih acc hs

/-- Lookup after the inner loop for a name the accumulator does not hold
yet: the name maps to this root exactly when it is listed and qualifies. -/
theorem installedInner_lookup_none (fs : FS) (r : String) (entries : List String)
    (name : String) :
    ∀ acc, acc.lookup name = none →
      (installedInner fs r entries acc).lookup name =
        (if entries.contains name && entryOK fs r name
          then some (r ++ "/" ++ name) else none) := by
  induction entries with
  | nil => intro acc h; simpa using h
  | cons e rest ih =>
    intro acc h
    unfold installedInner
    by_cases he : e = name
    · subst he
      rw [if_neg (by rw [any_key_eq_lookup_isSome, h]; simp)]
      by_cases hok : entryOK fs r e = true
      · rw [if_pos hok]
        have happ : (acc ++ [(e, r ++ "/" ++ e)]).lookup e = some (r ++ "/" ++ e) := by
          rw [lookup_append, h]
          simp [List.lookup]
        rw [installedInner_lookup_some fs r rest e _ (by rw [happ]; rfl), happ]
        simp [hok]
      · rw [if_neg hok, ih acc h]
        simp [hok]
    · have hne2 : (name == e) = false := by
        simp only [beq_eq_false_iff_ne, ne_eq]
        exact fun hh => he hh.symm
      have hcont : (e :: rest).contains name = rest.contains name := by
        simp only [List.contains_cons, hne2, Bool.false_or]
      rw [hcont]
      by_cases hany : (acc.any fun kv => kv.1 = e) = true
      · rw [if_pos hany]
        exact ih acc h
      · rw [if_neg hany]
        by_cases hok : entryOK fs r e = true
        · rw [if_pos hok]
          refine ih _ ?_
          rw [lookup_append, h]
          simp [List.lookup, hne2]
        · rw [if_neg hok]
          exact ih acc h

/-- Outer characterization of `list_installed`: when every root exists, the
loop succeeds and each name maps through the first root on which it
qualifies, earlier accumulator entries taking precedence. -/
theorem installedGo_lookup (fs : FS) (roots : List String)
    (h : ∀ r ∈ roots, (fs.findDir r).isSome) :
    ∀ acc, ∃ m, installedGo fs roots acc = .ok m ∧
      ∀ name, m.lookup name =
        match acc.lookup name with
        | some v => some v
        | none =>
          (roots.find? (fun r => qualifies fs r name)).map
            (fun r => r ++ "/" ++ name) := by
  induction roots with
  | nil =>
    intro acc
    refine ⟨acc, rfl, fun name => ?_⟩
    cases acc.lookup name <;> simp
  | cons r rest ih =>
    intro acc
    obtain ⟨d, hd⟩ := Option.isSome_iff_exists.mp (h r (by simp))
    obtain ⟨m, hm, hl⟩ := ih (fun r hr => h r (by simp [hr]))
      (installedInner fs r d.iterNames acc)
    refine ⟨m, ?_, fun name => ?_⟩
    · unfold installedGo
      rw [hd]
      exact hm
    · rw [hl name]
      have hq : qualifies fs r name = (d.iterNames.contains name && entryOK fs r name) := by
        unfold qualifies
        rw [hd]
      cases hacc : acc.lookup name with
      | some v =>
        rw [installedInner_lookup_some fs r d.iterNames name acc (by rw [hacc]; rfl), hacc]
      | none =>
        rw [installedInner_lookup_none fs r d.iterNames name acc hacc]
        by_cases hqn : (d.iterNames.contains name && entryOK fs r name) = true
        · rw [if_pos hqn]
          rw [List.find?_cons_of_pos _ (by rw [hq]; exact hqn)]
          simp
        · rw [if_neg hqn]
          rw [List.find?_cons_of_neg _ (by rw [hq]; exact hqn)]

/-- C10: when every resolved search root exists, `list_installed` succeeds
and returns a mapping whose lookup at every name is exactly the first root
(in search-path order) holding a qualifying subdirectory of that name —
present exactly when some root qualifies, mapped through the earliest such
root, later roots never overriding earlier ones. -/
theorem c10_list_installed_first_root_wins (env : Env) (fs : FS) (roots : List String)
    (h1 : lhapdf_datapath env fs = .ok roots)
    (h2 : ∀ r ∈ roots, (fs.findDir r).isSome) :
    ∃ m, list_installed env fs = .ok m ∧
      (∀ name, m.lookup name =
        (roots.find? (fun r => qualifies fs r name)).map (fun r => r ++ "/" ++ name)) ∧
      (∀ name, (m.lookup name).isSome ↔ ∃ r ∈ roots, qualifies fs r name = true) := by
  obtain ⟨m, hm, hl⟩ := installedGo_lookup fs roots h2 []
  refine ⟨m, ?_, fun name => by simpa using hl name, fun name => ?_⟩
  · unfold list_installed
    rw [h1]
    exact hm
  · have hthis : m.lookup name =
        (roots.find? (fun r => qualifies fs r name)).map (fun r => r ++ "/" ++ name) := by
      simpa using hl name
    rw [hthis]
    simp [List.find?_isSome]

/-- Fixture environment for the C10 witness. -/
def envC10 : Env :=
  { vars := fun k => if k = "LHAPDF_DATA_PATH" then some "/r1:/r2" else none,
    sysPre := "/usr", userHome := "/home/u", basePre := "/usr",
    lhapdfModule := none }

/-- Fixture filesystem for the C10 witness: set `A` is installed under both
roots, set `B` only under the second. -/
def fsC10 : FS :=
  { dirs :=
      [{ path := "/r1", subdirs := ["A"], files := [] },
       { path := "/r1/A", subdirs := [], files := [("A.info", "SetDesc: first")] },
       { path := "/r2", subdirs := ["A", "B"], files := [] },
       { path := "/r2/A", subdirs := [], files := [("A.info", "SetDesc: second")] },
       { path := "/r2/B", subdirs := [], files := [("B.info", "SetDesc: b")] }] }

/-- Witness for `c10_list_installed_first_root_wins`: the duplicated set
`A` is reported from the first root only, and `B` from the second. -/
theorem c10_list_installed_first_root_wins_witness :
    (∀ r ∈ ["/r1", "/r2"], (fsC10.findDir r).isSome) ∧
    ∃ m, list_installed envC10 fsC10 = .ok m ∧
      m.lookup "A" = some "/r1/A" ∧ m.lookup "B" = some "/r2/B" := by
  refine ⟨by decide, ?_⟩
  obtain ⟨m, hm, hl, _⟩ :=
    c10_list_installed_first_root_wins envC10 fsC10 ["/r1", "/r2"] (by decide) (by decide)
  refine ⟨m, hm, ?_, ?_⟩
  · rw [hl "A"]
    decide
  · rw [hl "B"]
    decide

/-! Claim C6. -/

/-- The block parser never raises the Skip signal. -/
theorem memberBlock_no_skip (c i : String) :
    memberBlock c ≠ .error (.memberSkip i) := by
  unfold memberBlock
  split
  · dsimp only
    split_ifs <;> simp
  · simp

/-- The loop over block segments never raises the Skip signal. -/
theorem blocksMapM_no_skip (ps : List String) : ∀ i, blocksMapM ps ≠ .error (.memberSkip i) := by
  induction ps with
  | nil => intro i h; simp [blocksMapM] at h
  | cons p rest ih =>
    intro i h
    unfold blocksMapM at h
    cases hb : memberBlock p with
    | error e =>
      rw [hb] at h
      simp only [Bind.bind, Except.bind] at h
      have he2 : e = .memberSkip i := by injection h
      rw [he2] at hb
      exact memberBlock_no_skip p i hb
    | ok b =>
      rw [hb] at h
      simp only [Bind.bind, Except.bind] at h
      cases hr : blocksMapM rest with
      | error e =>
        rw [hr] at h
        simp only [Bind.bind, Except.bind] at h
        have he2 : e = .memberSkip i := by injection h
        rw [he2] at hr
        exact ih i hr
      | ok bs =>
        rw [hr] at h
        simp only [Bind.bind, Except.bind] at h
        simp at h

/-- The classifier never raises the Skip signal. -/
theorem member_type_no_skip (id : String) (pt et : Option String) (i : String) :
    member_type id pt et ≠ .error (.memberSkip i) := by
  unfold member_type
  cases pt <;> dsimp only <;> split_ifs <;> simp

/-- The post-filter body of the member parser never raises the Skip
signal: the Skip site is unique and precedes any read of the content. -/
theorem memberCore_no_skip (id content : String) (et : Option String) (i : String) :
    memberCore id content et ≠ .error (.memberSkip i) := by
  intro h
  simp only [memberCore] at h
  cases ht : member_type id (headerGet (yamlLoad ((memberParts content).headD "")) "PdfType") et with
  | error e =>
    rw [ht] at h
    simp only [Bind.bind, Except.bind] at h
    have he2 : e = .memberSkip i := by injection h
    rw [he2] at ht
    exact member_type_no_skip _ _ et i ht
  | ok t =>
    rw [ht] at h
    simp only [Bind.bind, Except.bind] at h
    cases hb : blocksMapM ((if ¬ (pyStrip ((memberParts content).getLastD "").data).isEmpty
        then memberParts content else (memberParts content).dropLast).drop 1) with
    | error e =>
      rw [hb] at h
      simp only [Bind.bind, Except.bind] at h
      have he2 : e = .memberSkip i := by injection h
      rw [he2] at hb
      exact blocksMapM_no_skip _ i hb
    | ok bs =>
      rw [hb] at h
      simp only [Bind.bind, Except.bind] at h
      simp at h

/-- C6: with an id filter supplied, the member parser raises the Skip
signal exactly when the extracted four-digit id fails the Python
membership test against the filter — for any file content whatsoever, so
before any content-dependent work (first conjunct); a member whose id
passes the filter is parsed exactly as without a filter (second conjunct);
and the set loop consumes a Skip silently, leaving its state untouched and
continuing with the remaining files (third conjunct). -/
theorem c6_filter_skip_short_circuit (pn fn content : String) (et : Option String)
    (f : PyFilter) :
    (∀ i, member pn fn content et (some f) = .error (.memberSkip i) ↔
      (extractId pn fn = some i ∧ f.mem i = false)) ∧
    (∀ i, extractId pn fn = some i → f.mem i = true →
      member pn fn content et (some f) = member pn fn content et none) ∧
    (∀ (setname dirPath : String) (contentOf : String → String) (flt : PyFilter)
        (g : String) (rest : List String)
        (st : List (List Tensor) × List (String × String)) (i : String),
      member setname g (contentOf g) none (some flt) = .error (.memberSkip i) →
      assembleGo setname dirPath contentOf (some flt) (g :: rest) st =
        assembleGo setname dirPath contentOf (some flt) rest st) := by
  refine ⟨?_, ?_, ?_⟩
  · intro i
    constructor
    · intro h
      unfold member at h
      cases he : extractId pn fn with
      | none =>
        rw [he] at h
        simp at h
      | some j =>
        rw [he] at h
        dsimp only at h
        by_cases hm : f.mem j = true
        · rw [if_pos hm] at h
          exact absurd h (memberCore_no_skip j content et i)
        · rw [if_neg hm] at h
          have hji : j = i := by
            injection h with h1
            injection h1
          subst hji
          exact ⟨rfl, by simpa using hm⟩
    · rintro ⟨h1, h2⟩
      unfold member
      rw [h1]
      simp [h2]
  · intro i h1 h2
    unfold member
    rw [h1]
    simp [h2]
  · intro setname dirPath contentOf flt g rest st i h
    have step : assembleGo setname dirPath contentOf (some flt) (g :: rest) st =
        match member setname g (contentOf g) none (some flt) with
        | .ok res =>
          assembleGo setname dirPath contentOf (some flt) rest (st.1 ++ [res.2], st.2)
        | .error (.memberSkip _) => assembleGo setname dirPath contentOf (some flt) rest st
        | .error (.valueError msg) =>
          if hasMarker msg then
            assembleGo setname dirPath contentOf (some flt) rest
              (st.1, st.2 ++ [(dirPath ++ "/" ++ g, msg)])
          else .error (.valueError msg)
        | .error e => .error e := rfl
    rw [step, h]

/-- Corrupt member file content: its single block segment would raise the
unpack `ValueError` of `memberBlock` if it were ever parsed. -/
def c6corrupt : String := "PdfType: central\n---\nbroken\n---\n"

/-- Witness for `c6_filter_skip_short_circuit`: a filter restricted to id
`"0001"` makes the parser skip the file of id `"0002"` before touching its
corrupt numeric content (without the filter the same content raises the
unpack `ValueError`), and the set loop passes over it silently. -/
theorem c6_filter_skip_short_circuit_witness :
    extractId "s" "s_0002.dat" = some "0002" ∧
    (PyFilter.seq ["0001"]).mem "0002" = false ∧
    member "s" "s_0002.dat" c6corrupt none (some (.seq ["0001"])) =
      .error (.memberSkip "0002") ∧
    member "s" "s_0002.dat" c6corrupt none none =
      .error (.valueError "not enough values to unpack (expected 4, got 1)") ∧
    assembleGo "s" "/d/s" (fun _ => c6corrupt) (some (.seq ["0001"]))
      ["s_0002.dat"] ([], []) = .ok ([], []) := by
  refine ⟨by decide, by decide, ?_, by decide, ?_⟩
  · exact ((c6_filter_skip_short_circuit "s" "s_0002.dat" c6corrupt none
      (.seq ["0001"])).1 "0002").mpr ⟨by decide, by decide⟩
  · rw [(c6_filter_skip_short_circuit "s" "s_0002.dat" c6corrupt none
      (.seq ["0001"])).2.2 "s" "/d/s" (fun _ => c6corrupt) (.seq ["0001"])
      "s_0002.dat" [] ([], []) "0002"
      (((c6_filter_skip_short_circuit "s" "s_0002.dat" c6corrupt none
        (.seq ["0001"])).1 "0002").mpr ⟨by decide, by decide⟩)]
    rfl

/-! Claim C7. -/

/-- Modelled from the spec (naming pattern of §4.4, for comparison with the
source's regex): the file name is exactly `<setname>_NNNN.dat` with `NNNN`
four digits and a literal dot. -/
def specNameMatch (setname name : String) : Bool :=
  match dropStartL (setname ++ "_").data name.data with
  | some [d1, d2, d3, d4, '.', 'd', 'a', 't'] =>
    d1.isDigit && d2.isDigit && d3.isDigit && d4.isDigit
  | _ => false

/-- Successful start-matching decomposes the list. -/
theorem dropStartL_eq_append :
    ∀ p l r, dropStartL p l = some r → l = p ++ r := by
  intro p
  induction p with
  | nil =>
    intro l r h
    simp only [dropStartL, Option.some.injEq] at h
    simpa using h
  | cons c p ih =>
    intro l r h
    cases l with
    | nil => simp [dropStartL] at h
    | cons a l =>
      simp only [dropStartL] at h
      by_cases hc : c = a
      · rw [if_pos hc] at h
        rw [List.cons_append, ← ih l r h, hc]
      · rw [if_neg hc] at h
        cases h

/-- Substring containment on the right part of an append. -/
theorem containsSub_append_right (n b : List Char) (h : containsSub n b = true) :
    ∀ a, containsSub n (a ++ b) = true := by
  intro a
  induction a with
  | nil => simpa using h
  | cons c a ih =>
    rw [List.cons_append]
    unfold containsSub
    rw [ih]
    simp

/-- Bridge between the source regex and the literal pattern: on a glob
candidate (a name of the shape `<setname>_*.dat`), a successful regex match
forces the wildcard character to be the literal dot, so the name matches
the specification's pattern. -/
theorem extractId_glob_spec (sn name : String) (hg : globMatch sn name = true)
    (i : String) (hx : extractId sn name = some i) :
    specNameMatch sn name = true := by
  unfold extractId at hx
  split at hx
  · rename_i d1 d2 d3 d4 c heq
    split_ifs at hx with hd
    · have hname : name.data = (sn ++ "_").data ++ [d1, d2, d3, d4, c, 'd', 'a', 't'] :=
        dropStartL_eq_append _ _ _ heq
      have hsuf : ".dat".data.isSuffixOf name.data = true := by
        have := hg
        unfold globMatch at this
        simp only [Bool.and_eq_true] at this
        exact this.1.2
      obtain ⟨t, ht⟩ := List.isSuffixOf_iff_suffix.mp hsuf
      have hdec : t ++ ".dat".data =
          ((sn ++ "_").data ++ [d1, d2, d3, d4]) ++ [c, 'd', 'a', 't'] := by
        rw [ht, hname]
        simp
      have hlast := (List.append_inj' hdec (by rfl)).2
      have hc : c = '.' := by
        injection hlast with h1 _
        exact h1.symm
      subst hc
      unfold specNameMatch
      rw [heq]
      simp [hd.1, hd.2.1, hd.2.2.1, hd.2.2.2.1]
  · cases hx

/-- Message of the naming-convention `ValueError`. -/
def namingMsg (name : String) : String :=
  "File '" ++ name ++ "' does not match members name convention"

/-- The naming-convention message always holds the `"name convention"`
marker that the set loop looks for. -/
theorem hasMarker_namingMsg (name : String) : hasMarker (namingMsg name) = true := by
  unfold hasMarker strContains namingMsg
  have h : containsSub "name convention".data
      ("' does not match members name convention").data = true := by decide
  have hdata : ("File '" ++ name ++ "' does not match members name convention").data =
      ("File '".data ++ name.data) ++ "' does not match members name convention".data := by
    simp [String.data_append]
  rw [hdata, containsSub_append_right _ _ h]
  simp

/-- C7 (counterexample): the source regex `rf"{setname}_(\d{4}).dat"`
leaves the dot unescaped, so the file name `s_1234Xdat` — which does not
match the pattern `<setname>_NNNN.dat` — is accepted by the member parser
(id `"1234"` is extracted and parsing proceeds normally) instead of
failing with the naming-convention error. -/
theorem c7_counterexample_unescaped_dot :
    specNameMatch "s" "s_1234Xdat" = false ∧
    extractId "s" "s_1234Xdat" = some "1234" ∧
    member "s" "s_1234Xdat" "PdfType: central\n---\n1.0\n2.0\n21\n3.0\n---\n" none none =
      .ok ([("PdfType", "central")], [emptyArray]) := by
  refine ⟨by decide, by decide, by decide⟩

/-- C7 (amended): for every candidate member file enumerated during
full-set assembly (name of the glob shape `<setname>_*.dat`), failing the
literal pattern `<setname>_NNNN.dat` makes the member parser raise the
naming-convention `ValueError` carrying the raw file name — on such
candidates the unescaped dot of the regex is harmless — and the set loop
records `(memberpath, reason)` in the excluded list and continues with the
remaining files. -/
theorem c7_amended_naming_convention (sn name content : String) (et : Option String)
    (flt : Option PyFilter)
    (hg : globMatch sn name = true) (hs : specNameMatch sn name = false) :
    member sn name content et flt = .error (.valueError (namingMsg name)) ∧
    (∀ (dirPath : String) (contentOf : String → String) (rest : List String)
        (ms : List (List Tensor)) (us : List (String × String)),
      assembleGo sn dirPath contentOf flt (name :: rest) (ms, us) =
        assembleGo sn dirPath contentOf flt rest
          (ms, us ++ [(dirPath ++ "/" ++ name, namingMsg name)])) := by
  have hx : extractId sn name = none := by
    cases hx : extractId sn name with
    | none => rfl
    | some i =>
      rw [extractId_glob_spec sn name hg i hx] at hs
      cases hs
  have hmem : ∀ c fl, member sn name c et fl = .error (.valueError (namingMsg name)) := by
    intro c fl
    unfold member
    rw [hx]
    rfl
  refine ⟨hmem content flt, ?_⟩
  intro dirPath contentOf rest ms us
  have hmem2 : member sn name (contentOf name) none flt =
      .error (.valueError (namingMsg name)) := by
    unfold member
    rw [hx]
    rfl
  have step : assembleGo sn dirPath contentOf flt (name :: rest) (ms, us) =
      match member sn name (contentOf name) none flt with
      | .ok res => assembleGo sn dirPath contentOf flt rest (ms ++ [res.2], us)
      | .error (.memberSkip _) => assembleGo sn dirPath contentOf flt rest (ms, us)
      | .error (.valueError msg) =>
        if hasMarker msg then
          assembleGo sn dirPath contentOf flt rest
            (ms, us ++ [(dirPath ++ "/" ++ name, msg)])
        else .error (.valueError msg)
      | .error e => .error e := rfl
  rw [step, hmem2]
  dsimp only
  rw [if_pos (hasMarker_namingMsg name)]

/-- Witness for `c7_amended_naming_convention`: the glob candidate
`s_12a4.dat` (a non-digit in the id field) is rejected with the naming
error, recorded in the excluded list, and the following good member is
still parsed. -/
theorem c7_amended_naming_convention_witness :
    globMatch "s" "s_12a4.dat" = true ∧
    specNameMatch "s" "s_12a4.dat" = false ∧
    member "s" "s_12a4.dat" "anything" none none =
      .error (.valueError (namingMsg "s_12a4.dat")) ∧
    assembleGo "s" "/d/s" (fun _ => "PdfType: central\n---\n1.0\n2.0\n21\n3.0\n---\n")
      none ["s_12a4.dat", "s_0001.dat"] ([], []) =
      .ok ([[emptyArray]], [("/d/s/s_12a4.dat", namingMsg "s_12a4.dat")]) := by
  refine ⟨by decide, by decide,
    (c7_amended_naming_convention "s" "s_12a4.dat" "anything" none none
      (by decide) (by decide)).1, ?_⟩
  rw [(c7_amended_naming_convention "s" "s_12a4.dat"
      "PdfType: central\n---\n1.0\n2.0\n21\n3.0\n---\n" none none
      (by decide) (by decide)).2 "/d/s"
      (fun _ => "PdfType: central\n---\n1.0\n2.0\n21\n3.0\n---\n") ["s_0001.dat"] [] []]
  decide

/-! Claim C4. -/

/-- Length of the flattening of a rectangular row list. -/
theorem rect_flatten_length (nf : Nat) :
    ∀ rows : List (List (List Char)), (∀ r ∈ rows, r.length = nf) →
      rows.flatten.length = rows.length * nf := by
  intro rows
  induction rows with
  | nil => intro _; simp
  | cons r rest ih =>
    intro h
    have hr : r.length = nf := h r (by simp)
    have hrest := ih (fun r hr => h r (by simp [hr]))
    simp only [List.flatten_cons, List.length_append, hr, hrest, List.length_cons]
    rw [Nat.succ_mul]
    omega

/-- Indexing into the flattening of a rectangular row list: position
`i*nf + j` of the stream is entry `j` of row `i`. -/
theorem rect_flatten_getD (nf : Nat) (d : List Char) :
    ∀ (rows : List (List (List Char))) (i j : Nat),
      (∀ r ∈ rows, r.length = nf) → i < rows.length → j < nf →
      rows.flatten.getD (i * nf + j) d = (rows.getD i []).getD j d := by
  intro rows
  induction rows with
  | nil => intro i j _ hi _; simp at hi
  | cons r rest ih =>
    intro i j h hi hj
    have hr : r.length = nf := h r (by simp)
    cases i with
    | zero =>
      simp only [Nat.zero_mul, Nat.zero_add, List.flatten_cons, List.getD_cons_zero]
      exact List.getD_append r rest.flatten d j (by rw [hr]; exact hj)
    | succ i =>
      have hidx : (i + 1) * nf + j = r.length + (i * nf + j) := by
        rw [hr, Nat.succ_mul]
        omega
      simp only [List.flatten_cons, List.getD_cons_succ, hidx]
      rw [List.getD_append_right r rest.flatten d _ (by omega)]
      have hsub : r.length + (i * nf + j) - r.length = i * nf + j := by omega
      rw [hsub]
      exact ih i j (fun r hrr => h r (by simp [hrr])) (by simpa using hi) hj

/-- Default-independent indexing under `map` within bounds. -/
theorem getD_map_mk (l : List (List Char)) :
    ∀ (i : Nat) (d : List Char), i < l.length →
      (l.map String.mk).getD i "" = String.mk (l.getD i d) := by
  induction l with
  | nil => intro i d hi; simp at hi
  | cons a l ih =>
    intro i d hi
    cases i with
    | zero => rfl
    | succ i => exact ih i d (by simpa using hi)

/-- Padding rows that already have the header width changes nothing. -/
theorem padRow_map_self (n : Nat) (rows : List (List (List Char)))
    (h : ∀ r ∈ rows, r.length = n) :
    rows.map (fun r => padRow n (r.drop 0)) = rows := by
  induction rows with
  | nil => rfl
  | cons r rest ih =>
    simp only [List.map_cons]
    rw [ih (fun r hr => h r (by simp [hr]))]
    unfold padRow
    rw [List.drop_zero, h r (by simp), Nat.sub_self]
    simp

/-- C4 (amended): on a well-formed block — three grid lines of `nx`, `nq` and `nf`
tokens followed by `nx·nq` rectangular value rows of `nf` tokens each, the
layout pandas reads through the flavor-line header — `member_block`
succeeds with a value tensor of shape `(nx, nq, nf)` whose serialized
stream is laid out flavor-fastest, then Q², then x slowest: the tensor
entry at `(ix, iq, ifl)` is token `ifl` of serialized row `ix·nq + iq`. -/
theorem c4_member_block_shape_and_order (content : String) (xl ql fl vl : List Char)
    (nx nq nf : Nat)
    (h0 : splitSepN '\n' 3 (pyStrip content.data) = [xl, ql, fl, vl])
    (hx : (spaceTokens xl).length = nx)
    (hq : (spaceTokens ql).length = nq)
    (hf : (spaceTokens fl).length = nf)
    (hfw : wsTokens fl = spaceTokens fl)
    (hrw : ∀ r ∈ valueRows vl, r.length = nf)
    (hrc : (valueRows vl).length = nx * nq)
    (hnx : 0 < nx) (hnq : 0 < nq) (hnf : 0 < nf) :
    memberBlock content =
      .ok ((spaceTokens xl).map String.mk, (spaceTokens ql).map String.mk,
        (spaceTokens fl).map String.mk,
        { shape := [nx, nq, nf], data := (valueRows vl).flatten.map String.mk }) ∧
    (∀ ix iq ifl, ix < nx → iq < nq → ifl < nf →
      Tensor.at3
          { shape := [nx, nq, nf], data := (valueRows vl).flatten.map String.mk }
          ix iq ifl =
        String.mk (((valueRows vl).getD (ix * nq + iq) []).getD ifl [])) := by
  constructor
  · have hxne : spaceTokens xl ≠ [] := by
      intro hh
      rw [hh] at hx
      simp at hx
      omega
    have hqne : spaceTokens ql ≠ [] := by
      intro hh
      rw [hh] at hq
      simp at hq
      omega
    have hfne : spaceTokens fl ≠ [] := by
      intro hh
      rw [hh] at hf
      simp at hf
      omega
    have hrows_ne : valueRows vl ≠ [] := by
      intro hh
      rw [hh] at hrc
      simp only [List.length_nil] at hrc
      have := Nat.mul_pos hnx hnq
      omega
    have hnidx : ((valueRows vl).headD []).length - nf = 0 := by
      obtain ⟨r0, rs, hcons⟩ := List.exists_cons_of_ne_nil hrows_ne
      rw [hcons, List.headD_cons, hrw r0 (by rw [hcons]; exact List.mem_cons_self r0 rs)]
      omega
    unfold memberBlock
    rw [h0]
    dsimp only
    rw [if_neg (by simp [List.isEmpty_iff, hxne, hqne, hfne])]
    rw [hfw, hf, hx, hq]
    rw [hnidx]
    rw [if_pos (by
      simp only [List.all_eq_true, decide_eq_true_eq]
      intro r hr
      have := hrw r hr
      omega)]
    rw [padRow_map_self nf (valueRows vl) hrw]
    rw [if_pos (by rw [hrc])]
  · intro ix iq ifl hix hiq hifl
    have h1 : ix * nq + iq < nx * nq := by
      calc ix * nq + iq < ix * nq + nq := by omega
        _ = (ix + 1) * nq := (Nat.succ_mul ix nq).symm
        _ ≤ nx * nq := Nat.mul_le_mul_right nq hix
    have hflen : (valueRows vl).flatten.length = nx * nq * nf := by
      rw [rect_flatten_length nf (valueRows vl) hrw, hrc]
    have h2 : (ix * nq + iq) * nf + ifl < (valueRows vl).flatten.length := by
      rw [hflen]
      calc (ix * nq + iq) * nf + ifl < (ix * nq + iq) * nf + nf := by omega
        _ = (ix * nq + iq + 1) * nf := (Nat.succ_mul _ nf).symm
        _ ≤ nx * nq * nf := Nat.mul_le_mul_right nf h1
    unfold Tensor.at3
    dsimp only
    simp only [List.getD_cons_succ, List.getD_cons_zero]
    rw [getD_map_mk _ _ [] h2]
    rw [rect_flatten_getD nf [] (valueRows vl) (ix * nq + iq) ifl hrw (by omega) hifl]

/-- C4 (counterexample): a block whose remaining text holds exactly
`nx·nq·nf` floats does not in general parse to the claimed tensor — the
layout matters, because the source reads the value text through pandas
with the flavor line as header.  Here the grids declare 2 x-values,
1 Q²-value and 2 flavors and the remaining text holds exactly
2·1·2 = 4 floats, but one float per line: pandas pads every 1-field row
with `NaN` to the 2-column header width, `.values` has 8 entries, and the
reshape to `(2, 1, 2)` raises `ValueError` instead of returning the
claimed value tensor. -/
theorem c4_counterexample_count_alone_insufficient :
    splitSepN '\n' 3 (pyStrip "0.1 0.2\n1.0\n21 -21\n1\n2\n3\n4".data) =
      ["0.1 0.2".data, "1.0".data, "21 -21".data, "1\n2\n3\n4".data] ∧
    (spaceTokens "0.1 0.2".data).length = 2 ∧
    (spaceTokens "1.0".data).length = 1 ∧
    (spaceTokens "21 -21".data).length = 2 ∧
    (valueRows "1\n2\n3\n4".data).flatten.length = 2 * 1 * 2 ∧
    memberBlock "0.1 0.2\n1.0\n21 -21\n1\n2\n3\n4" =
      .error (.valueError "cannot reshape array of size 8 into shape (2,1,2)") := by
  refine ⟨by decide, by decide, by decide, by decide, by decide, by decide⟩

/-- Block text of the specification's round-trip example: 2 x-values,
3 Q²-values, 2 flavors, and 12 matching floats serialized as 6 rows of 2
(flavor fastest, then Q², then x). -/
def c4content : String :=
  "0.1 0.2\n1.0 2.0 3.0\n21 -21\n11 12\n13 14\n15 16\n17 18\n19 20\n21 22"

/-- Witness for `c4_member_block_shape_and_order`: the concrete 2×3×2
round-trip block parses to shape `(2, 3, 2)` and the sampled entries agree
with the flavor-fastest serialization: entry `(1, 2, 1)` is the last token
and entry `(0, 1, 0)` is the third. -/
theorem c4_member_block_shape_and_order_witness :
    memberBlock c4content =
      .ok (["0.1", "0.2"], ["1.0", "2.0", "3.0"], ["21", "-21"],
        { shape := [2, 3, 2],
          data := ["11", "12", "13", "14", "15", "16", "17", "18", "19", "20",
            "21", "22"] }) ∧
    Tensor.at3
        { shape := [2, 3, 2],
          data := ["11", "12", "13", "14", "15", "16", "17", "18", "19", "20",
            "21", "22"] } 1 2 1 = "22" ∧
    Tensor.at3
        { shape := [2, 3, 2],
          data := ["11", "12", "13", "14", "15", "16", "17", "18", "19", "20",
            "21", "22"] } 0 1 0 = "13" := by
  refine ⟨?_, by decide, by decide⟩
  have h := (c4_member_block_shape_and_order c4content
    "0.1 0.2".data "1.0 2.0 3.0".data "21 -21".data
    "11 12\n13 14\n15 16\n17 18\n19 20\n21 22".data 2 3 2
    (by decide) (by decide) (by decide) (by decide) (by decide)
    (by decide) (by decide) (by decide) (by decide) (by decide)).1
  rw [h]
  decide

/-! Claim C5. -/

/-- Space-interleaving of a token-character list, i.e.
`" ".join(tokens)` for one-character tokens. -/
def sepJoin : List Char → List Char
  | [] => []
  | [c] => [c]
  | c :: rest => c :: ' ' :: sepJoin rest

/-- Reduction of `sepJoin` on two or more characters. -/
theorem sepJoin_cons_cons (c d : Char) (l : List Char) :
    sepJoin (c :: d :: l) = c :: ' ' :: sepJoin (d :: l) := rfl

/-- Characters of a joined list are the original characters or spaces. -/
theorem sepJoin_mem (l : List Char) : ∀ c ∈ sepJoin l, c ∈ l ∨ c = ' ' := by
  induction l with
  | nil => intro c h; simp [sepJoin] at h
  | cons a t ih =>
    intro c h
    cases t with
    | nil =>
      simp only [sepJoin, List.mem_singleton] at h
      exact Or.inl (by simp [h])
    | cons b t2 =>
      rw [sepJoin_cons_cons] at h
      simp only [List.mem_cons] at h
      rcases h with rfl | rfl | h2
      · exact Or.inl (by simp)
      · exact Or.inr rfl
      · rcases ih c h2 with h3 | h3
        · exact Or.inl (by simp [h3])
        · exact Or.inr h3

/-- X-grid line with ten thousand tokens: its token count `10000` is the
smallest count whose decimal rendering holds the substring `"0000"`. -/
def bigX : List Char := sepJoin (List.replicate 10000 '0')

/-- Every character of the big grid line is a zero or a space. -/
theorem bigX_mem : ∀ c ∈ bigX, c = '0' ∨ c = ' ' := by
  intro c h
  rcases sepJoin_mem _ c h with h1 | h1
  · exact Or.inl (List.eq_of_mem_replicate h1)
  · exact Or.inr h1

/-- No dash occurs in the big grid line. -/
theorem bigX_ne_dash : ∀ c ∈ bigX, c ≠ '-' := by
  intro c h
  rcases bigX_mem c h with rfl | rfl <;> decide

/-- No newline occurs in the big grid line. -/
theorem bigX_ne_nl : ∀ c ∈ bigX, ¬ c = '\n' := by
  intro c h
  rcases bigX_mem c h with rfl | rfl <;> decide

/-- The joined replicate starts with its first token. -/
theorem sepJoin_replicate_head (n : Nat) :
    ∃ t, sepJoin (List.replicate (n + 1) '0') = '0' :: t := by
  cases n with
  | zero => exact ⟨[], rfl⟩
  | succ n =>
    rw [List.replicate_succ, List.replicate_succ, sepJoin_cons_cons]
    exact ⟨_, rfl⟩

/-- Reduction of the tokenizer on a non-separator head. -/
theorem wordsByGo_cons_of_neg (p : Char → Bool) (acc : List Char) (c : Char)
    (l : List Char) (h : p c = false) :
    wordsByGo p acc (c :: l) = wordsByGo p (c :: acc) l := by
  simp only [wordsByGo, h]
  rfl

/-- Reduction of the tokenizer on a separator head with a pending word. -/
theorem wordsByGo_cons_of_pos (p : Char → Bool) (a : Char) (acc : List Char)
    (c : Char) (l : List Char) (h : p c = true) :
    wordsByGo p (a :: acc) (c :: l) = (a :: acc).reverse :: wordsByGo p [] l := by
  simp only [wordsByGo, h]
  rfl

/-- Tokenizing a space-joined run of `n+1` zero characters yields `n+1`
one-character tokens. -/
theorem spaceTokens_sepJoin_replicate :
    ∀ n, spaceTokens (sepJoin (List.replicate (n + 1) '0')) = List.replicate (n + 1) ['0'] := by
  intro n
  induction n with
  | zero => decide
  | succ n ih =>
    rw [List.replicate_succ, List.replicate_succ, sepJoin_cons_cons, ← List.replicate_succ]
    unfold spaceTokens wordsBy
    rw [wordsByGo_cons_of_neg _ _ _ _ (by decide),
      wordsByGo_cons_of_pos _ _ _ _ _ (by decide)]
    unfold spaceTokens wordsBy at ih
    rw [ih, List.replicate_succ]
    rfl

/-- The big grid line tokenizes into exactly ten thousand tokens. -/
theorem bigX_tokens : spaceTokens bigX = List.replicate 10000 ['0'] := by
  unfold bigX
  rw [show (10000 : Nat) = 9999 + 1 by decide]
  exact spaceTokens_sepJoin_replicate 9999

/-- Corrupt block segment of the C5 fixture: the x-grid line holds ten
thousand tokens while the value table holds a single value. -/
def c5block : String := String.mk ('\n' :: (bigX ++ "\n0\n0\n0\n".data))

/-- Member file of the C5 fixture: a valid header and the corrupt block. -/
def c5content : String :=
  String.mk ("PdfType: central\n".data ++
    '-' :: '-' :: '-' :: (c5block.data ++ '-' :: '-' :: '-' :: '\n' :: []))

/-- Message of the reshape `ValueError` of the C5 fixture, with a size
whose decimal rendering holds the excluded-file marker `"0000"`. -/
def c5msg : String := "cannot reshape array of size 1 into shape (10000,1,1)"

/-- Stripping the corrupt block removes exactly its outer newlines. -/
theorem c5block_strip : pyStrip c5block.data = bigX ++ "\n0\n0\n0".data := by
  obtain ⟨bt, hbt⟩ := sepJoin_replicate_head 9999
  have hbig : bigX = '0' :: bt := by
    unfold bigX
    rw [show (10000 : Nat) = 9999 + 1 by decide]
    exact hbt
  unfold pyStrip
  rw [show c5block.data = '\n' :: (bigX ++ "\n0\n0\n0\n".data) from rfl]
  rw [List.dropWhile_cons, if_pos (by decide)]
  rw [hbig, List.cons_append, List.dropWhile_cons, if_neg (by decide),
    ← List.cons_append, ← hbig]
  rw [List.reverse_append]
  rw [show ("\n0\n0\n0\n".data).reverse = "\n0\n0\n0\n".data from by decide]
  rw [show "\n0\n0\n0\n".data ++ bigX.reverse =
    '\n' :: ('0' :: ("\n0\n0\n".data ++ bigX.reverse)) from rfl]
  rw [List.dropWhile_cons, if_pos (by decide), List.dropWhile_cons, if_neg (by decide)]
  rw [show ('0' :: ("\n0\n0\n".data ++ bigX.reverse)) =
    ('0' :: "\n0\n0\n".data) ++ bigX.reverse from rfl]
  rw [List.reverse_append, List.reverse_reverse]
  rw [show ('0' :: "\n0\n0\n".data).reverse = "\n0\n0\n0".data from by decide]

/-- The limited split walks through a newline-free piece unchanged. -/
theorem splitNGo_through (pre : List Char) (h : ∀ c ∈ pre, ¬ c = '\n') :
    ∀ (acc rest : List Char) (n : Nat),
      splitSepNGo '\n' (n + 1) acc (pre ++ '\n' :: rest) =
        (acc.reverse ++ pre) :: splitSepNGo '\n' n [] rest := by
  induction pre with
  | nil =>
    intro acc rest n
    simp only [List.nil_append, splitSepNGo, List.append_nil]
    simp
  | cons c pre ih =>
    intro acc rest n
    have hc : ¬ c = '\n' := h c (by simp)
    rw [List.cons_append]
    simp only [splitSepNGo]
    rw [if_neg hc, ih (fun d hd => h d (by simp [hd])) (c :: acc) rest n]
    simp

/-- The corrupt block splits into the x-grid line, two grid lines and the
single-value table. -/
theorem c5block_splitN :
    splitSepN '\n' 3 (pyStrip c5block.data) = [bigX, ['0'], ['0'], ['0']] := by
  rw [c5block_strip]
  unfold splitSepN
  rw [show bigX ++ "\n0\n0\n0".data = bigX ++ '\n' :: "0\n0\n0".data from rfl]
  rw [splitNGo_through bigX bigX_ne_nl [] _ 2]
  rw [show splitSepNGo '\n' 2 [] "0\n0\n0".data = [['0'], ['0'], ['0']] from by decide]
  rfl

/-- The C5 block fails with the reshape `ValueError` of size 1 against the
10000·1·1 declared shape. -/
theorem c5_memberBlock : memberBlock c5block = .error (.valueError c5msg) := by
  unfold memberBlock
  rw [c5block_splitN]
  dsimp only
  rw [bigX_tokens]
  rw [if_neg (by
    rintro (h | h | h)
    · rw [List.isEmpty_iff] at h
      have h2 := congrArg List.length h
      rw [List.length_replicate, List.length_nil] at h2
      exact absurd h2 (by decide)
    · exact absurd h (by decide)
    · exact absurd h (by decide))]
  rw [if_pos (by decide)]
  rw [if_neg (by
    rw [List.length_replicate]
    decide)]
  rw [List.length_replicate]
  decide

/-- No dash occurs in the corrupt block segment. -/
theorem c5block_no_dash : ∀ c ∈ c5block.data, c ≠ '-' := by
  intro c hc
  rw [show c5block.data = '\n' :: (bigX ++ "\n0\n0\n0\n".data) from rfl] at hc
  simp only [List.mem_cons, List.mem_append] at hc
  rcases hc with rfl | hc | rfl | rfl | rfl | rfl | rfl | rfl | rfl | h
  · decide
  · exact bigX_ne_dash c hc
  · decide
  · decide
  · decide
  · decide
  · decide
  · decide
  · decide
  · exact absurd h (List.not_mem_nil c)

/-- The C5 member file splits into header, corrupt block and terminator. -/
theorem c5content_parts :
    memberParts c5content = ["PdfType: central\n", c5block, "\n"] := by
  unfold memberParts
  rw [show c5content.data = "PdfType: central\n".data ++
    '-' :: '-' :: '-' :: (c5block.data ++ '-' :: '-' :: '-' :: '\n' :: []) from rfl]
  rw [delimSplitGo_append "PdfType: central\n".data [] _ (by decide)]
  rw [delimSplitGo_append c5block.data [] ('\n' :: []) c5block_no_dash]
  rfl

/-- Parsing the C5 member raises the reshape `ValueError`. -/
theorem c5_member :
    member "s" "s_0001.dat" c5content none none = .error (.valueError c5msg) := by
  unfold member
  rw [show extractId "s" "s_0001.dat" = some "0001" from by decide]
  simp only [memberCore]
  rw [c5content_parts]
  rw [show member_type "0001"
      (headerGet (yamlLoad (["PdfType: central\n", c5block, "\n"].headD "")) "PdfType")
      none = .ok "central" from by decide]
  simp only [Bind.bind, Except.bind]
  rw [show (["PdfType: central\n", c5block, "\n"].getLastD "") = "\n" from rfl]
  rw [if_neg (by decide)]
  rw [show (["PdfType: central\n", c5block, "\n"].dropLast).drop 1 = [c5block] from rfl]
  unfold blocksMapM blocksMapM
  rw [c5_memberBlock]
  rfl

/-- Exclusion step of the set loop: a member failing with a marker-bearing
`ValueError` is recorded in the excluded list and the loop continues. -/
theorem assembleGo_valueError_marker (sn dp : String) (contentOf : String → String)
    (flt : Option PyFilter) (g : String) (rest : List String)
    (ms : List (List Tensor)) (us : List (String × String)) (msg : String)
    (h : member sn g (contentOf g) none flt = .error (.valueError msg))
    (hmark : hasMarker msg = true) :
    assembleGo sn dp contentOf flt (g :: rest) (ms, us) =
      assembleGo sn dp contentOf flt rest (ms, us ++ [(dp ++ "/" ++ g, msg)]) := by
  have step : assembleGo sn dp contentOf flt (g :: rest) (ms, us) =
      match member sn g (contentOf g) none flt with
      | .ok res => assembleGo sn dp contentOf flt rest (ms ++ [res.2], us)
      | .error (.memberSkip _) => assembleGo sn dp contentOf flt rest (ms, us)
      | .error (.valueError m) =>
        if hasMarker m then
          assembleGo sn dp contentOf flt rest (ms, us ++ [(dp ++ "/" ++ g, m)])
        else .error (.valueError m)
      | .error e => .error e := rfl
  rw [step, h]
  dsimp only
  rw [if_pos hmark]

/-- C5 (code bug): a block whose flattened value count (1) differs from
`len(x)·len(Q²)·len(flavors)` (10000) does fail with the reshape
`ValueError` — but during full-set assembly this error is not fatal: its
message contains the decimal size `10000`, hence the substring `"0000"`
that the `except ValueError` handler of `parse` uses as a marker for
recoverable member errors, so the file is recorded in the excluded list
and the set parse continues instead of aborting. -/
theorem c5_malformed_block_excluded_not_fatal :
    memberBlock c5block = .error (.valueError c5msg) ∧
    strContains "0000" c5msg = true ∧
    assembleGo "s" "/d/s" (fun _ => c5content) none ["s_0001.dat"] ([], []) =
      .ok ([], [("/d/s/s_0001.dat", c5msg)]) := by
  refine ⟨c5_memberBlock, by decide, ?_⟩
  rw [assembleGo_valueError_marker "s" "/d/s" (fun _ => c5content) none "s_0001.dat"
    [] [] [] c5msg c5_member (by decide)]
  rfl

end Pydf
